import Mathlib

/-!
Verification development for the modrinther downloader (src/main.rs).

The Rust program reads a Modrinth modpack manifest, downloads every listed
file under a bounded-concurrency stream (`buffer_unordered(5)`), and writes
a human-readable summary.  This file gives a shallow embedding of the
manifest data model, the `download_file` materializer, the orchestration
performed by `main`, and the reporting phase, and proves (or refutes)
the specified properties against that embedding.
-/

namespace Modrinther

/-! ## Data model (structs `ModrinthIndex` and `ModFile` of main.rs) -/

/-- Embedding of `ModFile` (main.rs lines 29-37).  `HashMap` fields become
association lists; `u64` byte size becomes `Nat`. -/
structure ModFile where
  downloads : List String
  env : List (String × String)
  file_size : Nat
  hashes : List (String × String)
  path : String
deriving Repr, DecidableEq

/-- Embedding of `ModrinthIndex` (main.rs lines 15-27), without the
`overrides_path` field (serde-skipped, used only by the collaborator
that copies a static directory, outside every claim here). -/
structure ModrinthIndex where
  dependencies : List (String × String)
  files : List ModFile
  format_version : Nat
  game : String
  name : String
  version_id : String
deriving Repr, DecidableEq

/-- `HashMap::get` on the association-list embedding of `dependencies`. -/
def lookupDep (deps : List (String × String)) (k : String) : Option String :=
  (deps.find? (fun p => p.1 = k)).map (fun p => p.2)

/-- `HashMap::contains_key` on the association-list embedding. -/
def containsDep (deps : List (String × String)) (k : String) : Bool :=
  (deps.find? (fun p => p.1 = k)).isSome

/-! ## Filesystem paths

Rust `PathBuf`s are embedded as lists of path components.  `Path::join`
with a relative argument appends the argument's components; the program
never normalizes, so `..` components survive into the path handed to the
OS.  `splitPath` mirrors `Path::components()` on a relative path: it
splits on `/` and drops empty and `.` components. -/

/-- Split a character list at `/` separators (the accumulator holds the
current component, reversed). -/
def splitComponents : List Char → List Char → List String
  | [], cur => [String.mk cur.reverse]
  | c :: rest, cur =>
    if c = '/' then String.mk cur.reverse :: splitComponents rest []
    else splitComponents rest (c :: cur)

def splitPath (s : String) : List String :=
  (splitComponents s.data []).filter (fun c => c ≠ "" ∧ c ≠ ".")

/-- OS-level resolution of `..` components, used to state where a path
actually lands on disk.  A `..` pops the last component (at the root it
is a no-op, as on a real filesystem). -/
def normalizePath (p : List String) : List String :=
  p.foldl (fun acc c => if c = ".." then acc.dropLast else acc ++ [c]) []

/-- Whether the file named by components `p` resolves to a location inside
the directory `root` (itself given already normalized). -/
def isUnderRoot (root p : List String) : Bool :=
  (normalizePath p).take root.length == root ∧ root.length ≤ (normalizePath p).length

/-- `Path::file_name()` on the component embedding: the last component,
`none` when the path is empty or ends in `..` (Rust returns `None` there).
`main` then applies `unwrap_or_default`, hence `fileNameStr`. -/
def fileNameOf (path : String) : Option String :=
  match (splitPath path).getLast? with
  | some c => if c = ".." then none else some c
  | none => none

/-- `Path::new(p).file_name().unwrap_or_default().to_string_lossy()`
(main.rs lines 157-159 and 179-182). -/
def fileNameStr (path : String) : String :=
  (fileNameOf path).getD ""

/-! ## `sanitize_filename` (main.rs lines 339-348)

The Rust code starts from the name and, for each character of a fixed
list, replaces every occurrence of it by `_` (a one-character pattern and
a one-character replacement, so each `String::replace` is a character
map).  Strings are embedded as their character lists. -/

def invalid_chars : List Char :=
  ['<', '>', ':', '"', '/', '\\', '|', '?', '*']

/-- `String::replace(c, "_")` for a single-character pattern. -/
def replaceChar (s : List Char) (c : Char) : List Char :=
  s.map (fun x => if x = c then '_' else x)

/-- `sanitize_filename`: the successive replacements of main.rs lines
343-345, folded over `invalid_chars`. -/
def sanitize_filename (name : List Char) : List Char :=
  invalid_chars.foldl replaceChar name

/-! ## `download_file` (main.rs lines 350-384)

The materializer is embedded with explicit oracles for its two effectful
collaborators: `transport` stands for `reqwest` (one call per URL, either
a transport-level failure or a response carrying a status code and a
chunk stream, where a chunk itself may be a stream error, as `chunk?` can
fail mid-body), and `FsOracle` stands for the filesystem calls
(`create_dir_all`, `File::create`, `write_all`, `flush`).  The returned
trace records the filesystem effects that were actually performed, in
order.  The Rust signature returns `Result<(), Box<dyn Error + Send +
Sync>>`; the distinct dynamic error types that reach that box are
embedded as the constructors of `FetchError`.  Indexing `downloads[0]`
panics on an empty vector, which the embedding models as the `none`
result of the outer `Option`. -/

/-- The distinct failure kinds of `download_file`: a non-2xx HTTP status
(the `format!("Failed to download: HTTP {}", ...)` early return), an
error from the HTTP client (`send()` or `chunk?`), or a local filesystem
error (`create_dir_all`, `File::create`, `write_all`, `flush`). -/
inductive FetchError where
  | httpStatus (code : Nat)
  | transport (msg : String)
  | localIo (msg : String)
deriving Repr, DecidableEq

/-- `Display` of the boxed error, as it reaches the failure report. -/
def FetchError.message : FetchError → String
  | .httpStatus code => "Failed to download: HTTP " ++ toString code
  | .transport msg => msg
  | .localIo msg => msg

/-- A response from the HTTP client: status code plus the byte stream,
each chunk either bytes or a mid-stream client error. -/
structure HttpResponse where
  status : Nat
  chunks : List (Except String (List Nat))
deriving Repr

/-- `StatusCode::is_success()`: the 2xx range. -/
def statusIsSuccess (status : Nat) : Bool :=
  200 ≤ status ∧ status < 300

/-- A filesystem effect performed by `download_file`. -/
inductive FsAction where
  | mkdirAll (p : List String)
  | createFile (p : List String)
  | writeChunk (p : List String) (bytes : List Nat)
deriving Repr, DecidableEq

/-- Outcomes of the filesystem calls `download_file` makes. -/
structure FsOracle where
  mkdirOk : List String → Except String Unit
  createOk : List String → Except String Unit
  writeOk : List String → List Nat → Except String Unit
  flushOk : List String → Except String Unit

/-- The `while let Some(chunk) = stream.next().await` loop of main.rs
lines 375-379: each chunk is unwrapped (`chunk?`, a client error) and
written (`write_all(...).await?`, a local I/O error); successful writes
extend the effect trace. -/
def writeLoop (fs : FsOracle) (p : List String) :
    List (Except String (List Nat)) → List FsAction →
    Except FetchError Unit × List FsAction
  | [], tr => (.ok (), tr)
  | .error e :: _, tr => (.error (.transport e), tr)
  | .ok c :: rest, tr =>
    match fs.writeOk p c with
    | .error e => (.error (.localIo e), tr)
    | .ok _ => writeLoop fs p rest (tr ++ [.writeChunk p c])

/-- `download_file` (main.rs lines 350-384).  Steps, in source order:
take `downloads[0]` (panic — `none` — on an empty vector); resolve the
destination as `output_dir.join(file.path)`; `create_dir_all` on the
parent; GET the URL; bail out on a non-2xx status; `File::create`;
stream the body chunkwise; flush. -/
def download_file (transport : String → Except String HttpResponse)
    (fs : FsOracle) (file : ModFile) (output_dir : List String) :
    Option (Except FetchError Unit × List FsAction) :=
  match file.downloads.head? with
  | none => none
  | some url =>
    let file_path := output_dir ++ splitPath file.path
    let parent := file_path.dropLast
    match fs.mkdirOk parent with
    | .error e => some (.error (.localIo e), [])
    | .ok _ =>
      let tr0 := [FsAction.mkdirAll parent]
      match transport url with
      | .error e => some (.error (.transport e), tr0)
      | .ok resp =>
        if statusIsSuccess resp.status then
          match fs.createOk file_path with
          | .error e => some (.error (.localIo e), tr0)
          | .ok _ =>
            let r := writeLoop fs file_path resp.chunks
              (tr0 ++ [FsAction.createFile file_path])
            match r.1 with
            | .error _ => some r
            | .ok _ =>
              match fs.flushOk file_path with
              | .error e => some (.error (.localIo e), r.2)
              | .ok _ => some (.ok (), r.2)
        else
          some (.error (.httpStatus resp.status), tr0)

/-- A transport that always fails and a filesystem where every call
succeeds, for concrete evaluations. -/
def allOkFs : FsOracle :=
  { mkdirOk := fun _ => .ok ()
    createOk := fun _ => .ok ()
    writeOk := fun _ _ => .ok ()
    flushOk := fun _ => .ok () }

/-! ## Orchestration (main.rs lines 163-207)

`main` builds `stream::iter(0..files.len()).map(|i| async { ...
download_file(&files[i], ...) })`, drives it with `.buffer_unordered(5)`
and `.collect::<Vec<_>>()`.  `buffer_unordered(k)` keeps at most `k`
futures running, admits pending futures from the stream in stream order
whenever a slot is free, and yields each future's output *as it
completes*; `collect` gathers the yielded outputs in yield order.  This
is embedded as a transition system: a state records the next index to
admit, the indices currently in flight, and the completion order so far.
Each task's outcome is a function of its own index alone (the async
block returns `result` as a value — errors are caught there and never
propagate), so the collected vector is the completion order mapped
through the outcome function. -/

/-- State of the `buffer_unordered` driver: `next` is the next stream
index to admit, `inflight` the admitted-but-uncompleted indices, `done`
the indices in the order their futures completed (= yield order). -/
structure OrchState where
  next : Nat
  inflight : List Nat
  done : List Nat
deriving Repr, DecidableEq

/-- One scheduling step of `buffer_unordered k` over a stream of `n`
tasks: admit the next pending task when a slot is free, or complete any
in-flight task (completion order is scheduler-chosen, hence arbitrary
among in-flight tasks). -/
inductive OrchStep (k n : Nat) : OrchState → OrchState → Prop
  | launch (s : OrchState) (h1 : s.next < n) (h2 : s.inflight.length < k) :
      OrchStep k n s ⟨s.next + 1, s.inflight ++ [s.next], s.done⟩
  | complete (s : OrchState) (i : Nat) (h : i ∈ s.inflight) :
      OrchStep k n s ⟨s.next, s.inflight.erase i, s.done ++ [i]⟩

/-- States reachable from the empty initial state. -/
inductive OrchReachable (k n : Nat) : OrchState → Prop
  | init : OrchReachable k n ⟨0, [], []⟩
  | step {s t : OrchState} : OrchReachable k n s → OrchStep k n s t →
      OrchReachable k n t

/-- A finished run: the whole stream was admitted and nothing is left in
flight. -/
def OrchState.terminal (n : Nat) (s : OrchState) : Prop :=
  s.next = n ∧ s.inflight = []

/-- The vector `collect` produces: the completion order mapped through
the per-task outcome (`results` in main.rs line 169-207). -/
def collectedResults {α : Type} (outcome : Nat → α) (s : OrchState) : List α :=
  s.done.map outcome

/-! ## Reporting (main.rs lines 144-161 and 209-232) -/

/-- `results.iter().filter(|r| r.is_ok()).count()` (main.rs line 212). -/
def success_count (results : List (Except FetchError Unit)) : Nat :=
  (results.filter (fun r => r.toBool)).length

/-- `results.iter().filter(|r| r.is_err()).count()` (main.rs line 213). -/
def error_count (results : List (Except FetchError Unit)) : Nat :=
  (results.filter (fun r => !r.toBool)).length

/-- The failure report of main.rs lines 225-229: for each `Err` at
position `i` of the collected vector, the line pairs it with
`index.files[i].path`. -/
def failed_report (files : List ModFile)
    (results : List (Except FetchError Unit)) : List (String × FetchError) :=
  results.enum.filterMap (fun p =>
    match p.2 with
    | .error e => some (((files.get? p.1).map ModFile.path).getD "", e)
    | .ok _ => none)

/-- One line of the installed-mods listing (main.rs lines 156-161):
the file name of `file.path` and the declared size. -/
def mod_line (f : ModFile) : String :=
  "- " ++ fileNameStr f.path ++ " (" ++ toString f.file_size ++ " bytes)\n"

/-- Loader detection (main.rs lines 102-110). -/
def loader_type (deps : List (String × String)) : String :=
  if containsDep deps "fabric-loader" then "Fabric"
  else if containsDep deps "forge" then "Forge"
  else if containsDep deps "quilt-loader" then "Quilt"
  else "Unknown"

/-- Loader version lookup (main.rs lines 113-119). -/
def loader_version (deps : List (String × String)) : String :=
  (match loader_type deps with
   | "Fabric" => lookupDep deps "fabric-loader"
   | "Forge" => lookupDep deps "forge"
   | "Quilt" => lookupDep deps "quilt-loader"
   | _ => none).getD "unknown"

/-- The header of the summary string (main.rs lines 149-154), built
before the artifact loop. -/
def summary_header (index : ModrinthIndex) : String :=
  "Modpack: " ++ index.name ++ "\n" ++
  "Minecraft version: " ++ (lookupDep index.dependencies "minecraft").getD "unknown" ++ "\n" ++
  "Loader: " ++ loader_type index.dependencies ++ " " ++ loader_version index.dependencies ++ "\n" ++
  "Total mods: " ++ toString index.files.length ++ "\n\n" ++
  "Installed mods:\n"

/-- The full summary string: the header followed by the `for file in
&index.files` push_str loop (main.rs lines 149-161).  It is built from
the manifest alone, before any download begins. -/
def build_summary (index : ModrinthIndex) : String :=
  index.files.foldl (fun acc f => acc ++ mod_line f) (summary_header index)

/-- An observable action of the reporting phase: a console line or a
file write. -/
inductive ReportAction where
  | consoleLine (s : String)
  | fileWrite (path : List String) (content : String)
deriving Repr, DecidableEq

/-- The reporting phase of `main` (lines 209-232), in source order:
the success tally, the unconditional summary-file write, and — only when
failures occurred — the failure tally and the per-failure lines. -/
def report_phase (index : ModrinthIndex) (output_dir : List String)
    (results : List (Except FetchError Unit)) : List ReportAction :=
  [ReportAction.consoleLine "Installation complete!",
   ReportAction.consoleLine ("Successfully downloaded: " ++
     toString (success_count results) ++ "/" ++ toString index.files.length),
   ReportAction.fileWrite (output_dir ++ ["modpack_summary.txt"]) (build_summary index)] ++
  (if error_count results > 0 then
    ReportAction.consoleLine ("Failed to download: " ++
      toString (error_count results) ++ "/" ++ toString index.files.length) ::
    ReportAction.consoleLine "Errors:" ::
    (failed_report index.files results).map (fun pr =>
      ReportAction.consoleLine ("  - " ++ pr.1 ++ ": " ++ pr.2.message))
  else []) ++
  [ReportAction.consoleLine "Created summary file"]

/-! ## Helper lemmas -/

/-- Folding single-character replacements over a character list is the
pointwise map that sends every character of the list to `_` and keeps
the rest: replacements never interfere because the replacement character
is itself only ever replaced by itself. -/
theorem foldl_replaceChar (cs s : List Char) :
    cs.foldl replaceChar s = s.map (fun x => if x ∈ cs then '_' else x) := by
  induction cs generalizing s with
  | nil => simp
  | cons c cs ih =>
    rw [List.foldl_cons, ih, replaceChar, List.map_map]
    congr 1
    funext x
    by_cases hx : x = c
    · subst hx
      simp [Function.comp]
    · simp [Function.comp, hx]

/-- C9: `sanitize_filename` maps the manifest display name pointwise,
sending every character of the program's unsafe-character list to `_`
and leaving all other characters unchanged, so its result contains no
unsafe character. -/
theorem C9_sanitize_filename (name : List Char) :
    sanitize_filename name =
      name.map (fun x => if x ∈ invalid_chars then '_' else x) ∧
    ∀ c ∈ sanitize_filename name, c ∉ invalid_chars := by
  constructor
  · exact foldl_replaceChar _ _
  · intro c hc
    rw [sanitize_filename, foldl_replaceChar] at hc
    rcases List.mem_map.mp hc with ⟨x, _, hx⟩
    by_cases hmem : x ∈ invalid_chars
    · rw [if_pos hmem] at hx
      subst hx
      decide
    · rw [if_neg hmem] at hx
      exact hx ▸ hmem

/-- Run invariant of the `buffer_unordered k` driver: the in-flight set
never exceeds `k`, the tasks completed or in flight are exactly the
first `next` stream indices (so admission follows manifest order), and
admission never passes the end of the stream. -/
theorem orch_invariant {k n : Nat} {s : OrchState} (h : OrchReachable k n s) :
    s.inflight.length ≤ k ∧
    List.Perm (s.done ++ s.inflight) (List.range s.next) ∧
    s.next ≤ n := by
  induction h with
  | init => simp
  | step hs hstep ih =>
    obtain ⟨ihlen, ihperm, ihle⟩ := ih
    rename_i u t
    cases hstep with
    | launch h1 h2 =>
      refine ⟨by simpa using h2, ?_, h1⟩
      rw [List.range_succ, ← List.append_assoc]
      exact ihperm.append_right _
    | complete i hi =>
      refine ⟨le_trans (List.Sublist.length_le (List.erase_sublist i u.inflight)) ihlen,
        ?_, ihle⟩
      have h1 : List.Perm ((u.done ++ [i]) ++ u.inflight.erase i)
          (u.done ++ u.inflight) := by
        rw [List.append_assoc]
        exact List.Perm.append_left u.done (List.perm_cons_erase hi).symm
      exact h1.trans ihperm

/-- C5: in every reachable state of the orchestrator run with
concurrency cap `k`, at most `k` materialize operations are in flight,
and the set of admitted tasks (completed plus in flight) is exactly the
first `next` manifest indices — tasks are admitted in manifest order as
slots free up, never beyond the stream's end.  Instantiated at the
program's cap `k = 5` in the witness. -/
theorem C5_bounded_concurrency (k n : Nat) (s : OrchState)
    (h : OrchReachable k n s) :
    s.inflight.length ≤ k ∧
    List.Perm (s.done ++ s.inflight) (List.range s.next) ∧
    s.next ≤ n :=
  orch_invariant h

/-- Witness for C5: the reachable state of a 2-artifact run under cap 5
in which artifact 0 and artifact 1 were admitted (in that order) and
none has completed. -/
theorem C5_bounded_concurrency_witness :
    (OrchState.mk 2 [0, 1] []).inflight.length ≤ 5 ∧
    List.Perm ((OrchState.mk 2 [0, 1] []).done ++ (OrchState.mk 2 [0, 1] []).inflight)
      (List.range (OrchState.mk 2 [0, 1] []).next) ∧
    (OrchState.mk 2 [0, 1] []).next ≤ 2 :=
  C5_bounded_concurrency 5 2 ⟨2, [0, 1], []⟩
    (OrchReachable.step
      (OrchReachable.step OrchReachable.init
        (OrchStep.launch ⟨0, [], []⟩ (by decide) (by decide)))
      (OrchStep.launch ⟨1, [0], []⟩ (by decide) (by decide)))

/-! ## A concrete two-artifact run

The scenario of §8 of the spec: artifact 0 (`mods/a.jar`) fails with a
connection error, artifact 1 (`mods/b.jar`) succeeds; the scheduler
happens to complete artifact 1 first, which `buffer_unordered(5)`
permits since both are in flight together. -/

def exampleFiles : List ModFile :=
  [{ downloads := ["http://x/a"], env := [], file_size := 10, hashes := [],
     path := "mods/a.jar" },
   { downloads := ["http://y/b"], env := [], file_size := 20, hashes := [],
     path := "mods/b.jar" }]

def exampleOutcome : Nat → Except FetchError Unit :=
  fun i => if i = 0 then .error (.transport "connection error") else .ok ()

/-- The schedule admit 0, admit 1, complete 1, complete 0 is a valid
`buffer_unordered(5)` execution over a 2-task stream; it ends with
completion order `[1, 0]`. -/
theorem reach_done_rev : OrchReachable 5 2 ⟨2, [], [1, 0]⟩ :=
  OrchReachable.step
    (OrchReachable.step
      (OrchReachable.step
        (OrchReachable.step OrchReachable.init
          (OrchStep.launch ⟨0, [], []⟩ (by decide) (by decide)))
        (OrchStep.launch ⟨1, [0], []⟩ (by decide) (by decide)))
      (OrchStep.complete ⟨2, [0, 1], []⟩ 1 (by decide)))
    (OrchStep.complete ⟨2, [0], [1]⟩ 0 (by decide))

/-- C3: in every finished run, whatever the per-artifact success/failure
mix, the completion order covers every manifest index exactly once —
every artifact was attempted, none was cancelled or blocked by another's
failure — and the collected vector is a permutation of each artifact's
own recorded outcome, of length exactly N.  Outcomes are plain values
returned from the task bodies, so no step of the scheduler depends on
them. -/
theorem C3_failure_isolation (k n : Nat)
    (outcome : Nat → Except FetchError Unit) (s : OrchState)
    (h : OrchReachable k n s) (hnext : s.next = n) (hflight : s.inflight = []) :
    List.Perm s.done (List.range n) ∧
    (collectedResults outcome s).length = n ∧
    List.Perm (collectedResults outcome s) ((List.range n).map outcome) ∧
    ∀ i, i < n → s.done.count i = 1 := by
  obtain ⟨-, hperm, -⟩ := orch_invariant h
  rw [hflight, List.append_nil, hnext] at hperm
  refine ⟨hperm, ?_, hperm.map outcome, ?_⟩
  · rw [collectedResults, List.length_map, hperm.length_eq, List.length_range]
  · intro i hi
    rw [hperm.count_eq]
    exact List.count_eq_one_of_mem (List.nodup_range n) (List.mem_range.mpr hi)

/-- Witness for C3: the concrete mixed run (artifact 0 fails, artifact 1
succeeds, completion order reversed) still yields one recorded outcome
per artifact. -/
theorem C3_failure_isolation_witness :
    List.Perm (OrchState.mk 2 [] [1, 0]).done (List.range 2) ∧
    (collectedResults exampleOutcome ⟨2, [], [1, 0]⟩).length = 2 ∧
    List.Perm (collectedResults exampleOutcome ⟨2, [], [1, 0]⟩)
      ((List.range 2).map exampleOutcome) ∧
    ∀ i, i < 2 → (OrchState.mk 2 [] [1, 0]).done.count i = 1 :=
  C3_failure_isolation 5 2 exampleOutcome ⟨2, [], [1, 0]⟩ reach_done_rev rfl rfl

/-- C1 (refuted; evaluation of the code at the failing input): `main`
collects the per-artifact results with `buffer_unordered(5).collect()`,
which yields them in *completion* order, not manifest order.  Under the
valid schedule in which artifact 1 finishes before artifact 0
(`reach_done_rev`), the collected vector of the two-artifact run is
`[Ok, Err]` although artifact 0 is the failing one, so the entry at
index 0 is not artifact 0's outcome, and the failure report of main.rs
lines 225-229 pairs artifact 0's connection error with artifact 1's
path `mods/b.jar`. -/
theorem C1_results_in_completion_order :
    OrchReachable 5 2 ⟨2, [], [1, 0]⟩ ∧
    OrchState.terminal 2 ⟨2, [], [1, 0]⟩ ∧
    collectedResults exampleOutcome ⟨2, [], [1, 0]⟩ =
      [.ok (), .error (.transport "connection error")] ∧
    (collectedResults exampleOutcome ⟨2, [], [1, 0]⟩).get? 0 ≠
      some (exampleOutcome 0) ∧
    failed_report exampleFiles (collectedResults exampleOutcome ⟨2, [], [1, 0]⟩) =
      [("mods/b.jar", .transport "connection error")] ∧
    (exampleFiles.get? 0).map ModFile.path = some "mods/a.jar" ∧
    "mods/b.jar" ≠ "mods/a.jar" := by
  exact ⟨reach_done_rev, ⟨rfl, rfl⟩, rfl,
    fun h => Except.noConfusion (Option.some.inj h), by decide, by decide, by decide⟩

/-- A transport that answers every URL with status 200 and a three-byte
body. -/
def okTransport : String → Except String HttpResponse :=
  fun _ => .ok { status := 200, chunks := [.ok [1, 2, 3]] }

/-- An artifact whose `relative_path` climbs out of the output root. -/
def evilFile : ModFile :=
  { downloads := ["http://x/evil"], env := [], file_size := 3, hashes := [],
    path := "../../etc/passwd" }

/-- C2 (refuted; evaluation of the code at the failing input):
`download_file` resolves the destination by a bare `output_dir.join`
with no path-escape check, so for `relative_path = "../../etc/passwd"`
under output root `home/user/pack` the whole download succeeds (`Ok`,
no recorded failure), the file is created and written at a path that
normalizes to `home/etc/passwd`, outside the output root. -/
theorem C2_path_escape_not_rejected :
    download_file okTransport allOkFs evilFile ["home", "user", "pack"] =
      some (.ok (),
        [FsAction.mkdirAll ["home", "user", "pack", "..", "..", "etc"],
         FsAction.createFile ["home", "user", "pack", "..", "..", "etc", "passwd"],
         FsAction.writeChunk ["home", "user", "pack", "..", "..", "etc", "passwd"]
           [1, 2, 3]]) ∧
    isUnderRoot ["home", "user", "pack"]
      ["home", "user", "pack", "..", "..", "etc", "passwd"] = false ∧
    normalizePath ["home", "user", "pack", "..", "..", "etc", "passwd"] =
      ["home", "etc", "passwd"] := by
  refine ⟨rfl, by decide, by decide⟩

/-- An artifact with an empty `downloads` list. -/
def emptyDownloadsFile : ModFile :=
  { downloads := [], env := [], file_size := 0, hashes := [], path := "mods/c.jar" }

/-- C4 (refuted; evaluation of the code at the failing input): nothing
between deserialization and the fetch validates `downloads`, and
`download_file` starts with `&file.downloads[0]`, which panics on an
empty vector — modelled as the `none` result.  An empty `download_urls`
is therefore a fetch-time crash, not a manifest-validation error. -/
theorem C4_empty_downloads_is_fetch_time :
    download_file okTransport allOkFs emptyDownloadsFile ["out"] = none ∧
    emptyDownloadsFile.downloads.head? = none := ⟨rfl, rfl⟩

/-- The body-streaming loop fails only with `transport` (a mid-stream
client error) or `localIo` (a failed write), never with `httpStatus`. -/
theorem writeLoop_no_httpStatus (fs : FsOracle) (p : List String)
    (chunks : List (Except String (List Nat))) (tr : List FsAction) (c : Nat) :
    (writeLoop fs p chunks tr).1 ≠ .error (.httpStatus c) := by
  induction chunks generalizing tr with
  | nil => simp [writeLoop]
  | cons ch rest ih =>
    cases ch with
    | error e => simp [writeLoop]
    | ok b =>
      cases hw : fs.writeOk p b with
      | error e => simp [writeLoop, hw]
      | ok u => simpa [writeLoop, hw] using ih _

/-- The body-streaming loop only appends `writeChunk` actions for its
own destination path to the trace it is given. -/
theorem writeLoop_trace (fs : FsOracle) (p : List String)
    (chunks : List (Except String (List Nat))) (tr : List FsAction) :
    ∃ ws, (writeLoop fs p chunks tr).2 = tr ++ ws ∧
      ∀ a ∈ ws, ∃ b, a = FsAction.writeChunk p b := by
  induction chunks generalizing tr with
  | nil => exact ⟨[], by simp [writeLoop], by simp⟩
  | cons ch rest ih =>
    cases ch with
    | error e => exact ⟨[], by simp [writeLoop], by simp⟩
    | ok b =>
      cases hw : fs.writeOk p b with
      | error e => exact ⟨[], by simp [writeLoop, hw], by simp⟩
      | ok u =>
        obtain ⟨ws, hws, hall⟩ := ih (tr ++ [FsAction.writeChunk p b])
        refine ⟨FsAction.writeChunk p b :: ws, ?_, ?_⟩
        · simp only [writeLoop, hw]
          rw [hws, List.append_assoc]
          rfl
        · intro a ha
          rcases List.mem_cons.mp ha with h | h
          · exact ⟨b, h⟩
          · exact hall a h

/-- The unfolding of `download_file` once the first URL is known and the
parent-directory creation succeeds: everything that follows depends on
the transport only through its answer at that one URL. -/
theorem download_file_unfold (t : String → Except String HttpResponse)
    (fs : FsOracle) (f : ModFile) (d : List String) (url : String)
    (hurl : f.downloads.head? = some url)
    (hmk : fs.mkdirOk (d ++ splitPath f.path).dropLast = .ok ()) :
    download_file t fs f d =
      match t url with
      | .error e => some (.error (.transport e),
          [FsAction.mkdirAll (d ++ splitPath f.path).dropLast])
      | .ok resp =>
        if statusIsSuccess resp.status then
          match fs.createOk (d ++ splitPath f.path) with
          | .error e => some (.error (.localIo e),
              [FsAction.mkdirAll (d ++ splitPath f.path).dropLast])
          | .ok _ =>
            let r := writeLoop fs (d ++ splitPath f.path) resp.chunks
              [FsAction.mkdirAll (d ++ splitPath f.path).dropLast,
               FsAction.createFile (d ++ splitPath f.path)]
            match r.1 with
            | .error _ => some r
            | .ok _ =>
              match fs.flushOk (d ++ splitPath f.path) with
              | .error e => some (.error (.localIo e), r.2)
              | .ok _ => some (.ok (), r.2)
        else some (.error (.httpStatus resp.status),
          [FsAction.mkdirAll (d ++ splitPath f.path).dropLast]) := by
  simp only [download_file, hurl, hmk, List.cons_append, List.nil_append]

/-- C6: with the parent directory in place, (1) the materializer's
behaviour depends on the transport only through the *first* download
URL — any two transports agreeing there give identical results, so
the other candidate URLs are never consulted; (2) a failing request is
reported as `transport`; (3) a non-2xx response is reported as
`httpStatus` with that code; (4) conversely an `httpStatus` failure
arises only from a non-2xx response at the first URL; (5) a failing
local write is reported as `localIo`; and (6) the three kinds are
pairwise distinct. -/
theorem C6_first_url_and_error_kinds
    (t t2 : String → Except String HttpResponse) (fs : FsOracle)
    (f : ModFile) (d : List String) (url : String)
    (hurl : f.downloads.head? = some url)
    (hmk : fs.mkdirOk (d ++ splitPath f.path).dropLast = .ok ()) :
    (t url = t2 url → download_file t fs f d = download_file t2 fs f d) ∧
    (∀ e, t url = .error e →
      download_file t fs f d =
        some (.error (.transport e),
          [FsAction.mkdirAll (d ++ splitPath f.path).dropLast])) ∧
    (∀ resp, t url = .ok resp → statusIsSuccess resp.status = false →
      download_file t fs f d =
        some (.error (.httpStatus resp.status),
          [FsAction.mkdirAll (d ++ splitPath f.path).dropLast])) ∧
    (∀ c tr, download_file t fs f d = some (.error (.httpStatus c), tr) →
      ∃ resp, t url = .ok resp ∧ resp.status = c ∧ statusIsSuccess c = false) ∧
    (∀ resp b rest m, t url = .ok resp → statusIsSuccess resp.status = true →
      fs.createOk (d ++ splitPath f.path) = .ok () →
      resp.chunks = .ok b :: rest →
      fs.writeOk (d ++ splitPath f.path) b = .error m →
      download_file t fs f d =
        some (.error (.localIo m),
          [FsAction.mkdirAll (d ++ splitPath f.path).dropLast,
           FsAction.createFile (d ++ splitPath f.path)])) ∧
    (∀ c m m2, FetchError.httpStatus c ≠ FetchError.transport m ∧
      FetchError.transport m ≠ FetchError.localIo m2 ∧
      FetchError.httpStatus c ≠ FetchError.localIo m2) := by
  refine ⟨?_, ?_, ?_, ?_, ?_, ?_⟩
  · intro h
    rw [download_file_unfold t fs f d url hurl hmk,
      download_file_unfold t2 fs f d url hurl hmk, h]
  · intro e ht
    rw [download_file_unfold t fs f d url hurl hmk, ht]
  · intro resp ht hs
    rw [download_file_unfold t fs f d url hurl hmk, ht]
    simp [hs]
  · intro c tr h
    rw [download_file_unfold t fs f d url hurl hmk] at h
    split at h
    case _ e ht => simp at h
    case _ resp ht =>
      dsimp only at h
      split at h
      case isTrue hs =>
        split at h
        case _ e hc => simp at h
        case _ u hc =>
          split at h
          case _ fe hwl =>
            exact absurd (congrArg Prod.fst (Option.some.inj h))
              (writeLoop_no_httpStatus _ _ _ _ c)
          case _ v hwl =>
            split at h
            · simp at h
            · simp at h
      case isFalse hs =>
        simp only [Option.some.injEq, Prod.mk.injEq, Except.error.injEq,
          FetchError.httpStatus.injEq] at h
        refine ⟨resp, ht, h.1, ?_⟩
        rw [← h.1]
        simpa using hs
  · intro resp b rest m ht hs hc hchunks hw
    rw [download_file_unfold t fs f d url hurl hmk, ht]
    simp only [hs, if_true, hc, hchunks]
    simp [writeLoop, hw]
  · intro c m m2
    exact ⟨by simp, by simp, by simp⟩

/-- A transport whose every request fails at the client level. -/
def failTransport : String → Except String HttpResponse :=
  fun _ => .error "dns failure"

/-- The first artifact of the concrete scenario, on its own. -/
def fileA : ModFile :=
  { downloads := ["http://x/a"], env := [], file_size := 10, hashes := [],
    path := "mods/a.jar" }

/-- Witness for C6: a DNS-level failure on `mods/a.jar` is reported as
the `transport` kind, with only the parent directory created. -/
theorem C6_first_url_and_error_kinds_witness :
    download_file failTransport allOkFs fileA ["out"] =
      some (.error (.transport "dns failure"),
        [FsAction.mkdirAll ["out", "mods"]]) :=
  (C6_first_url_and_error_kinds failTransport failTransport allOkFs fileA
    ["out"] "http://x/a" rfl rfl).2.1 "dns failure" rfl

/-- Every successful-or-failed `download_file` run (with the parent
`create_dir_all` succeeding) records the parent-directory creation in
its trace, and any file creation in the trace is at the joined
destination path and happened only after a 2xx response arrived at the
first URL. -/
theorem download_file_trace (t : String → Except String HttpResponse)
    (fs : FsOracle) (f : ModFile) (d : List String) (url : String)
    (hurl : f.downloads.head? = some url)
    (hmk : fs.mkdirOk (d ++ splitPath f.path).dropLast = .ok ())
    (r : Except FetchError Unit) (tr : List FsAction)
    (h : download_file t fs f d = some (r, tr)) :
    FsAction.mkdirAll (d ++ splitPath f.path).dropLast ∈ tr ∧
    ∀ p, FsAction.createFile p ∈ tr →
      p = d ++ splitPath f.path ∧
      ∃ resp, t url = .ok resp ∧ statusIsSuccess resp.status = true := by
  have htrivial : ∀ (hyp : [FsAction.mkdirAll (d ++ splitPath f.path).dropLast] = tr),
      FsAction.mkdirAll (d ++ splitPath f.path).dropLast ∈ tr ∧
      ∀ p, FsAction.createFile p ∈ tr →
        p = d ++ splitPath f.path ∧
        ∃ resp, t url = .ok resp ∧ statusIsSuccess resp.status = true := by
    intro hyp
    rw [← hyp]
    refine ⟨List.mem_singleton.mpr rfl, ?_⟩
    intro p hp
    simp at hp
  have hwl : ∀ (resp : HttpResponse), t url = .ok resp →
      statusIsSuccess resp.status = true →
      (writeLoop fs (d ++ splitPath f.path) resp.chunks
        [FsAction.mkdirAll (d ++ splitPath f.path).dropLast,
         FsAction.createFile (d ++ splitPath f.path)]).2 = tr →
      FsAction.mkdirAll (d ++ splitPath f.path).dropLast ∈ tr ∧
      ∀ p, FsAction.createFile p ∈ tr →
        p = d ++ splitPath f.path ∧
        ∃ resp2, t url = .ok resp2 ∧ statusIsSuccess resp2.status = true := by
    intro resp ht hs heq
    obtain ⟨ws, hws, hall⟩ := writeLoop_trace fs (d ++ splitPath f.path) resp.chunks
      [FsAction.mkdirAll (d ++ splitPath f.path).dropLast,
       FsAction.createFile (d ++ splitPath f.path)]
    rw [heq] at hws
    subst hws
    constructor
    · exact List.mem_append_left _ (List.mem_cons_self _ _)
    · intro p hp
      rcases List.mem_append.mp hp with hp | hp
      · rcases List.mem_cons.mp hp with hp | hp
        · exact absurd hp (by simp)
        · rcases List.mem_singleton.mp hp with hp2
          refine ⟨FsAction.createFile.inj hp2, resp, ht, hs⟩
      · obtain ⟨b, hb⟩ := hall _ hp
        exact absurd hb (by simp)
  rw [download_file_unfold t fs f d url hurl hmk] at h
  split at h
  case _ e ht =>
    simp only [Option.some.injEq, Prod.mk.injEq] at h
    exact htrivial h.2
  case _ resp ht =>
    dsimp only at h
    split at h
    case isTrue hs =>
      split at h
      case _ e hc =>
        simp only [Option.some.injEq, Prod.mk.injEq] at h
        exact htrivial h.2
      case _ u hc =>
        split at h
        case _ fe hwl2 =>
          have h2 := Option.some.inj h
          exact hwl resp ht hs (congrArg Prod.snd h2)
        case _ v hwl2 =>
          split at h
          case _ e hf =>
            simp only [Option.some.injEq, Prod.mk.injEq] at h
            exact hwl resp ht hs h.2
          case _ u2 hf =>
            simp only [Option.some.injEq, Prod.mk.injEq] at h
            exact hwl resp ht hs h.2
    case isFalse hs =>
      simp only [Option.some.injEq, Prod.mk.injEq] at h
      exact htrivial h.2

/-- C10: when the fetch fails before the body is streamed — the request
itself fails, or the status is non-2xx — the result trace is exactly the
parent-directory creation: no destination file is created, nothing is
written, yet the parent directories have already been made.  In any run
whatsoever, a file creation in the trace is at the destination path and
is preceded by a 2xx response, so a partial destination file can only
come from the streaming phase. -/
theorem C10_no_file_before_status (t : String → Except String HttpResponse)
    (fs : FsOracle) (f : ModFile) (d : List String) (url : String)
    (hurl : f.downloads.head? = some url)
    (hmk : fs.mkdirOk (d ++ splitPath f.path).dropLast = .ok ()) :
    (∀ e, t url = .error e →
      download_file t fs f d =
        some (.error (.transport e),
          [FsAction.mkdirAll (d ++ splitPath f.path).dropLast])) ∧
    (∀ resp, t url = .ok resp → statusIsSuccess resp.status = false →
      download_file t fs f d =
        some (.error (.httpStatus resp.status),
          [FsAction.mkdirAll (d ++ splitPath f.path).dropLast])) ∧
    (∀ r tr, download_file t fs f d = some (r, tr) →
      FsAction.mkdirAll (d ++ splitPath f.path).dropLast ∈ tr ∧
      ∀ p, FsAction.createFile p ∈ tr →
        p = d ++ splitPath f.path ∧
        ∃ resp, t url = .ok resp ∧ statusIsSuccess resp.status = true) := by
  refine ⟨?_, ?_, ?_⟩
  · intro e ht
    rw [download_file_unfold t fs f d url hurl hmk, ht]
  · intro resp ht hs
    rw [download_file_unfold t fs f d url hurl hmk, ht]
    simp [hs]
  · intro r tr h
    exact download_file_trace t fs f d url hurl hmk r tr h

/-- A transport answering every URL with a bare 404. -/
def notFoundTransport : String → Except String HttpResponse :=
  fun _ => .ok { status := 404, chunks := [] }

/-- Witness for C10: a 404 on `mods/a.jar` leaves only the created
parent directory behind — no destination file. -/
theorem C10_no_file_before_status_witness :
    download_file notFoundTransport allOkFs fileA ["out"] =
      some (.error (.httpStatus 404), [FsAction.mkdirAll ["out", "mods"]]) :=
  (C10_no_file_before_status notFoundTransport allOkFs fileA ["out"]
    "http://x/a" rfl rfl).2.1 { status := 404, chunks := [] } rfl rfl

/-- The failure report keeps exactly one entry per `Err` of the
collected vector, whatever index the enumeration starts at. -/
theorem failed_report_length_aux (files : List ModFile)
    (results : List (Except FetchError Unit)) (n : Nat) :
    ((results.enumFrom n).filterMap (fun p =>
      match p.2 with
      | .error e => some (((files.get? p.1).map ModFile.path).getD "", e)
      | .ok _ => none)).length =
    (results.filter (fun r => !r.toBool)).length := by
  induction results generalizing n with
  | nil => rfl
  | cons r rest ih =>
    cases r with
    | error e =>
      show (List.filterMap (fun p =>
          match p.2 with
          | .error e => some (((files.get? p.1).map ModFile.path).getD "", e)
          | .ok _ => none) (List.enumFrom (n + 1) rest)).length + 1 =
        (List.filter (fun r => !r.toBool) rest).length + 1
      rw [ih]
    | ok u =>
      show (List.filterMap (fun p =>
          match p.2 with
          | .error e => some (((files.get? p.1).map ModFile.path).getD "", e)
          | .ok _ => none) (List.enumFrom (n + 1) rest)).length =
        (List.filter (fun r => !r.toBool) rest).length
      exact ih (n + 1)

/-- C7: the reporter counts exactly the `Ok` entries as successes and
the `Err` entries as failures, the two counts add up to the number of
outcomes, the failure report has one entry per `Err` pairing the error
with the path stored at the same index, the success tally line
"success count / total" is printed, and when failures occurred every
failure-report line is printed. -/
theorem C7_reporter_counts (index : ModrinthIndex) (output_dir : List String)
    (results : List (Except FetchError Unit)) :
    success_count results = results.countP (fun r => r.toBool) ∧
    error_count results = results.countP (fun r => !r.toBool) ∧
    success_count results + error_count results = results.length ∧
    (failed_report index.files results).length = error_count results ∧
    (∀ i e, results.get? i = some (.error e) →
      (((index.files.get? i).map ModFile.path).getD "", e) ∈
        failed_report index.files results) ∧
    ReportAction.consoleLine ("Successfully downloaded: " ++
        toString (success_count results) ++ "/" ++ toString index.files.length) ∈
      report_phase index output_dir results ∧
    (error_count results > 0 →
      ∀ pr ∈ failed_report index.files results,
        ReportAction.consoleLine ("  - " ++ pr.1 ++ ": " ++ pr.2.message) ∈
          report_phase index output_dir results) := by
  refine ⟨(List.countP_eq_length_filter _ _).symm,
    (List.countP_eq_length_filter _ _).symm,
    (List.length_eq_length_filter_add _).symm, ?_, ?_, ?_, ?_⟩
  · rw [failed_report, List.enum]
    exact failed_report_length_aux index.files results 0
  · intro i e hget
    rw [failed_report]
    refine List.mem_filterMap.mpr ⟨(i, .error e), ?_, rfl⟩
    rw [List.mem_enum_iff_getElem?, ← List.get?_eq_getElem?]
    exact hget
  · simp [report_phase]
  · intro herr pr hpr
    simp only [report_phase, if_pos herr]
    refine List.mem_append.mpr (Or.inl (List.mem_append.mpr (Or.inr ?_)))
    refine List.mem_cons.mpr (Or.inr (List.mem_cons.mpr (Or.inr ?_)))
    exact List.mem_map.mpr ⟨pr, hpr, rfl⟩

/-- `foldl` of string appends with an appended seed hoists the seed. -/
theorem string_foldl_append_init (l : List String) (a b : String) :
    l.foldl (fun x y => x ++ y) (a ++ b) = a ++ l.foldl (fun x y => x ++ y) b := by
  induction l generalizing b with
  | nil => rfl
  | cons s rest ih => rw [List.foldl_cons, List.foldl_cons, String.append_assoc, ih]

/-- `String.join` peels its head. -/
theorem string_join_cons (s : String) (l : List String) :
    String.join (s :: l) = s ++ String.join l := by
  show l.foldl (fun x y => x ++ y) ("" ++ s) = s ++ l.foldl (fun x y => x ++ y) ""
  rw [show ("" ++ s) = s ++ "" from by
    rw [String.append_empty]
    exact (String.append_empty s ▸ rfl : "" ++ s = s)]
  exact string_foldl_append_init l s ""

/-- The push_str loop of main.rs lines 156-161 appends exactly one line
per artifact, in manifest order. -/
theorem foldl_mod_line (l : List ModFile) (init : String) :
    l.foldl (fun acc f => acc ++ mod_line f) init =
      init ++ String.join (l.map mod_line) := by
  induction l generalizing init with
  | nil =>
    show init = init ++ String.join []
    rw [show String.join [] = "" from rfl, String.append_empty]
  | cons f rest ih =>
    rw [List.foldl_cons, ih, List.map_cons, string_join_cons, String.append_assoc]

/-- C8: the summary is the manifest-derived header followed by exactly
one line per manifest artifact in manifest order (file name plus
declared size), it is written to the fixed-name `modpack_summary.txt`
directly under the output root in *every* run whatever the outcome mix,
and that is the only file the reporting phase writes. -/
theorem C8_summary_file (index : ModrinthIndex) (output_dir : List String)
    (results : List (Except FetchError Unit)) :
    build_summary index =
      summary_header index ++ String.join (index.files.map mod_line) ∧
    ReportAction.fileWrite (output_dir ++ ["modpack_summary.txt"])
        (build_summary index) ∈ report_phase index output_dir results ∧
    (∀ p c, ReportAction.fileWrite p c ∈ report_phase index output_dir results →
      p = output_dir ++ ["modpack_summary.txt"] ∧ c = build_summary index) := by
  refine ⟨foldl_mod_line index.files (summary_header index), by simp [report_phase], ?_⟩
  intro p c hmem
  simp only [report_phase] at hmem
  rcases List.mem_append.mp hmem with h | h
  · rcases List.mem_append.mp h with h | h
    · rcases List.mem_cons.mp h with h | h
      · exact absurd h (by simp)
      · rcases List.mem_cons.mp h with h | h
        · exact absurd h (by simp)
        · rcases List.mem_singleton.mp h with h2
          exact ⟨(ReportAction.fileWrite.inj h2).1, (ReportAction.fileWrite.inj h2).2⟩
    · by_cases herr : error_count results > 0
      · rw [if_pos herr] at h
        rcases List.mem_cons.mp h with h | h
        · exact absurd h (by simp)
        · rcases List.mem_cons.mp h with h | h
          · exact absurd h (by simp)
          · obtain ⟨pr, _, hpr⟩ := List.mem_map.mp h
            exact absurd hpr (by simp)
      · rw [if_neg herr] at h
        exact absurd h (List.not_mem_nil _)
  · rcases List.mem_singleton.mp h with h2
    exact absurd h2 (by simp)

end Modrinther

